import Mathlib

/-!
Verification of the mqtt-sentinel-demo distributed load-generation engine.

Shallow embedding of:
- `UserIDAllocator` (demo/loadtest/locustfile_distributed.py): worker-partitioned
  identity allocation with pool wraparound;
- the gmqtt connection flow (`GMQTTConnectionClient.connect` / `_connect_async` /
  `_on_connect`) and the `on_request` statistics listener;
- the synchronous paho connect poll loop (`MQTTConnectionClient.connect` in
  locustfile_connection_test.py);
- the subscriber message handler `MQTTSubscriberClient._on_message` and the
  per-worker alert statistics merge (locustfile.py).
Python integers are arbitrary precision and all quantities here are
non-negative, so they are modelled as `Nat`; wall-clock time is modelled as
discrete poll steps.
-/

/-- State of `UserIDAllocator` (locustfile_distributed.py lines 78-111).
`worker_index`, `worker_count`, `user_pool_size` are set at construction and
never mutated; `_counter` starts at 0. `_base_id = worker_index + 1`. -/
structure UserIDAllocator where
  worker_index : Nat
  worker_count : Nat
  user_pool_size : Nat
  counter : Nat
  deriving DecidableEq, Repr

/-- `self._base_id = worker_index + 1` (constructor, line 93). -/
def UserIDAllocator.base_id (a : UserIDAllocator) : Nat :=
  a.worker_index + 1

/-- `get_next_user_id` (lines 95-106): computes
`user_id = _base_id + _counter * worker_count`, increments `_counter`, and if
`user_id > user_pool_size` resets `_counter` to 0 and returns `_base_id`
instead, logging a warning.  Returns (returned id, wrapped-warning flag,
new allocator state). -/
def UserIDAllocator.get_next_user_id (a : UserIDAllocator) : Nat × Bool × UserIDAllocator :=
  let user_id := a.base_id + a.counter * a.worker_count
  if user_id > a.user_pool_size then
    (a.base_id, true, { a with counter := 0 })
  else
    (user_id, false, { a with counter := a.counter + 1 })

/-- A fresh allocator for a worker, as built by `get_user_allocator`
(lines 118-127): counter starts at 0. -/
def mkAllocator (w count pool : Nat) : UserIDAllocator :=
  { worker_index := w, worker_count := count, user_pool_size := pool, counter := 0 }

/-- Allocator state after `n` calls to `get_next_user_id`. -/
def allocSteps (a : UserIDAllocator) : Nat → UserIDAllocator
  | 0 => a
  | n + 1 => (allocSteps a n).get_next_user_id.2.2

/-- The id returned by the `(n+1)`-th call to `get_next_user_id`. -/
def allocValue (a : UserIDAllocator) (n : Nat) : Nat :=
  (allocSteps a n).get_next_user_id.1

/-- Whether the `(n+1)`-th call wrapped around (emitted the warning). -/
def allocWrapped (a : UserIDAllocator) (n : Nat) : Bool :=
  (allocSteps a n).get_next_user_id.2.1

/-- The ids returned by the first `n` calls, in order. -/
def allocValues (a : UserIDAllocator) (n : Nat) : List Nat :=
  (List.range n).map (allocValue a)

/-- The configuration fields of the allocator are never mutated by
`get_next_user_id`; only `_counter` changes. -/
theorem allocSteps_config (a : UserIDAllocator) (n : Nat) :
    (allocSteps a n).worker_index = a.worker_index ∧
    (allocSteps a n).worker_count = a.worker_count ∧
    (allocSteps a n).user_pool_size = a.user_pool_size := by
  induction n with
  | zero => exact ⟨rfl, rfl, rfl⟩
  | succ n ih =>
    simp only [allocSteps, UserIDAllocator.get_next_user_id, UserIDAllocator.base_id]
    split <;> simpa using ih

/-- As long as the ids stay within the pool, the counter simply counts calls:
if the id of call `k` fits in the pool then after `j ≤ k` calls the counter
is exactly `j`. -/
theorem allocSteps_counter_of_le (w count pool k : Nat)
    (h : (w + 1) + k * count ≤ pool) :
    ∀ j, j ≤ k → allocSteps (mkAllocator w count pool) j =
      { worker_index := w, worker_count := count, user_pool_size := pool, counter := j } := by
  intro j hj
  induction j with
  | zero => rfl
  | succ j ih =>
    have hjk : j ≤ k := Nat.le_of_succ_le hj
    have hstate := ih hjk
    have hid : (w + 1) + j * count ≤ pool := by
      have : j * count ≤ k * count := Nat.mul_le_mul_right count hjk
      omega
    simp only [allocSteps, hstate, UserIDAllocator.get_next_user_id, UserIDAllocator.base_id]
    simp only [gt_iff_lt, if_neg (by omega : ¬ pool < (w + 1) + j * count)]

/-- If the arithmetic-progression id of call `k` fits in the pool, the call
returns exactly `(w+1) + k*count` (no wraparound has occurred). -/
theorem allocValue_of_le (w count pool k : Nat)
    (h : (w + 1) + k * count ≤ pool) :
    allocValue (mkAllocator w count pool) k = (w + 1) + k * count := by
  have hstate := allocSteps_counter_of_le w count pool k h k (Nat.le_refl k)
  simp only [allocValue, hstate, UserIDAllocator.get_next_user_id, UserIDAllocator.base_id]
  simp only [gt_iff_lt, if_neg (by omega : ¬ pool < (w + 1) + k * count)]

/-- For `x ≤ count`, `x % count` is either `x` itself (when `x < count`) or 0
(when `x = count`); used to separate residues of distinct workers. -/
theorem succ_mod_cases (x count : Nat) (hx : x < count) :
    (x + 1) % count = x + 1 ∨ (x + 1 = count ∧ (x + 1) % count = 0) := by
  rcases Nat.lt_or_ge (x + 1) count with h | h
  · exact Or.inl (Nat.mod_eq_of_lt h)
  · have hxc : x + 1 = count := le_antisymm (Nat.succ_le_of_lt hx) h
    exact Or.inr ⟨hxc, by simp [hxc]⟩

/-- C1: for any pool size, any worker count, distinct worker indices
`w1 ≠ w2` in `[0, count-1]` and any sequence numbers `k1, k2`, as long as both
computed identities `(w+1) + k*count` lie within `[1, poolSize]` (so no
wraparound has occurred on either worker), the two calls return distinct
identities. -/
theorem alloc_cross_worker_distinct (count pool w1 w2 k1 k2 : Nat)
    (hw1 : w1 < count) (hw2 : w2 < count) (hne : w1 ≠ w2)
    (h1 : (w1 + 1) + k1 * count ≤ pool) (h2 : (w2 + 1) + k2 * count ≤ pool) :
    allocValue (mkAllocator w1 count pool) k1 ≠ allocValue (mkAllocator w2 count pool) k2 := by
  rw [allocValue_of_le w1 count pool k1 h1, allocValue_of_le w2 count pool k2 h2]
  intro heq
  have hmod : (w1 + 1) % count = (w2 + 1) % count := by
    have hc := congrArg (fun x => x % count) heq
    simpa [Nat.add_mul_mod_self_right] using hc
  rcases succ_mod_cases w1 count hw1 with hc1 | ⟨he1, hc1⟩ <;>
    rcases succ_mod_cases w2 count hw2 with hc2 | ⟨he2, hc2⟩ <;>
    omega

/-- Closed-form witness for C1: workers 0 and 1 of 2, first call each,
pool 100 — identities 1 and 2 differ. -/
theorem alloc_cross_worker_distinct_witness :
    allocValue (mkAllocator 0 2 100) 0 ≠ allocValue (mkAllocator 1 2 100) 0 :=
  alloc_cross_worker_distinct 2 100 0 1 0 0 (by decide) (by decide) (by decide)
    (by decide) (by decide)

set_option maxRecDepth 10000 in
/-- C3: with pool size 100 and 2 workers, worker 0's first 50 calls return
1, 3, 5, …, 99 and worker 1's return 2, 4, 6, …, 100; worker 0's 51st call
wraps around (emitting the warning, not an error) and returns identity 1
again. -/
theorem alloc_scenario_pool100 :
    allocValues (mkAllocator 0 2 100) 50 = (List.range 50).map (fun k => 2 * k + 1) ∧
    allocValues (mkAllocator 1 2 100) 50 = (List.range 50).map (fun k => 2 * k + 2) ∧
    allocValue (mkAllocator 0 2 100) 50 = 1 ∧
    allocWrapped (mkAllocator 0 2 100) 50 = true := by
  refine ⟨?_, ?_, by decide, by decide⟩ <;> decide

/-- C9 counterexample: with worker index 1 of 2 workers (in range) and pool
size 1 ≥ 1, the very first call returns identity 2, which is outside
`[1, poolSize] = [1, 1]` — the wraparound branch returns `base_id = 2`
unchecked. -/
theorem alloc_range_counterexample :
    1 < 2 ∧ 1 ≤ 1 ∧ allocValue (mkAllocator 1 2 1) 0 = 2 ∧
    ¬ allocValue (mkAllocator 1 2 1) 0 ≤ 1 := by
  decide

/-- One call to `get_next_user_id` either wraps (the computed id exceeded the
pool; returns `base_id`, resets the counter) or returns the computed id, which
then fits in the pool, with the counter incremented. -/
theorem get_next_split (s : UserIDAllocator) :
    (s.user_pool_size < s.worker_index + 1 + s.counter * s.worker_count ∧
      s.get_next_user_id = (s.worker_index + 1, true, { s with counter := 0 })) ∨
    (s.worker_index + 1 + s.counter * s.worker_count ≤ s.user_pool_size ∧
      s.get_next_user_id = (s.worker_index + 1 + s.counter * s.worker_count, false,
        { s with counter := s.counter + 1 })) := by
  simp only [UserIDAllocator.get_next_user_id, UserIDAllocator.base_id]
  split <;> rename_i hc
  · exact Or.inl ⟨hc, rfl⟩
  · exact Or.inr ⟨by omega, rfl⟩

/-- C9 (amended): if in addition the worker's base identity fits in the pool
(`workerIndex + 1 ≤ poolSize`), then every identity returned by any call is
in `[1, poolSize]`. -/
theorem alloc_value_in_range (w count pool n : Nat)
    (hw : w < count) (hbase : w + 1 ≤ pool) :
    1 ≤ allocValue (mkAllocator w count pool) n ∧
    allocValue (mkAllocator w count pool) n ≤ pool := by
  obtain ⟨hwi, hwc, hps⟩ := allocSteps_config (mkAllocator w count pool) n
  have hwi' : (allocSteps (mkAllocator w count pool) n).worker_index = w := hwi
  have hps' : (allocSteps (mkAllocator w count pool) n).user_pool_size = pool := hps
  rcases get_next_split (allocSteps (mkAllocator w count pool) n) with ⟨hc, heq⟩ | ⟨hc, heq⟩
  · simp only [allocValue, heq]
    rw [hwi']
    omega
  · simp only [allocValue, heq]
    rw [hwi'] at hc ⊢
    rw [hps'] at hc
    omega

/-- Closed-form witness for C9 (amended): worker 0 of 1, pool 5, first call
returns 1 ∈ [1, 5]. -/
theorem alloc_value_in_range_witness :
    1 ≤ allocValue (mkAllocator 0 1 5) 0 ∧ allocValue (mkAllocator 0 1 5) 0 ≤ 5 :=
  alloc_value_in_range 0 1 5 0 (by decide) (by decide)

/-- C10: if the `(n+1)`-th call wrapped around (computed id exceeded the pool,
counter reset to 0, `base_id` returned), then that call and the immediately
following call both return `base_id = workerIndex + 1`: the base identity is
returned by two consecutive calls. -/
theorem wrap_then_base_repeats (a : UserIDAllocator) (n : Nat)
    (h : allocWrapped a n = true) :
    allocValue a n = a.worker_index + 1 ∧ allocValue a (n + 1) = a.worker_index + 1 := by
  obtain ⟨hwi, hwc, hps⟩ := allocSteps_config a n
  rcases get_next_split (allocSteps a n) with ⟨hc, heq⟩ | ⟨hc, heq⟩
  · have hv1 : allocValue a n = a.worker_index + 1 := by
      simp only [allocValue, heq]
      rw [hwi]
    have hstep : allocSteps a (n + 1) = { allocSteps a n with counter := 0 } := by
      simp only [allocSteps, heq]
    have hwi2 : (allocSteps a (n + 1)).worker_index = a.worker_index :=
      (allocSteps_config a (n + 1)).1
    have hc0 : (allocSteps a (n + 1)).counter = 0 := by rw [hstep]
    rcases get_next_split (allocSteps a (n + 1)) with ⟨_, heq2⟩ | ⟨_, heq2⟩
    · refine ⟨hv1, ?_⟩
      simp only [allocValue, heq2]
      rw [hwi2]
    · refine ⟨hv1, ?_⟩
      simp only [allocValue, heq2]
      rw [hwi2, hc0]
      simp
  · simp [allocWrapped, heq] at h

/-- Closed-form witness for C10: worker 0 of 1, pool 1 — the second call
(index 1) wraps, and both it and the third call return identity 1. -/
theorem wrap_then_base_repeats_witness :
    allocValue (mkAllocator 0 1 1) 1 = (mkAllocator 0 1 1).worker_index + 1 ∧
    allocValue (mkAllocator 0 1 1) 2 = (mkAllocator 0 1 1).worker_index + 1 :=
  wrap_then_base_repeats (mkAllocator 0 1 1) 1 (by decide)

/-- State of `MQTTSubscriberClient` relevant to `_on_message`
(locustfile.py lines 69-92): the received-message counter and the last
receipt time, both updated under `self._lock`.  Time is modelled as an
abstract `Nat` instant supplied by the caller (the code reads
`time.time()`). -/
structure SubscriberState where
  messages_received : Nat
  last_message_time : Option Nat
  deriving DecidableEq, Repr

/-- An `alert_received` request event as fired by `_on_message`
(locustfile.py lines 203-210): `exception` is `none` exactly when the payload
was valid, and the context carries the `valid` flag. -/
structure AlertEvent where
  name : String
  valid : Bool
  exception : Option String
  deriving DecidableEq, Repr

/-- `MQTTSubscriberClient._on_message` (locustfile.py lines 193-215):
increments `messages_received`, records `last_message_time = now`, computes
`is_valid = (payload == "ALERT")` on the decoded payload, and fires one
`alert_received` event whose exception is set iff the payload was not the
expected string.  The payload is modelled as the UTF-8-decoded string the
code compares (`msg.payload.decode` with replacement never fails). -/
def on_message (st : SubscriberState) (now : Nat) (payload : String) :
    SubscriberState × AlertEvent :=
  let st := { st with messages_received := st.messages_received + 1,
                      last_message_time := some now }
  let is_valid := payload == "ALERT"
  (st, { name := "alert_received", valid := is_valid,
         exception := if is_valid then none
                      else some ("Unexpected payload: " ++ payload) })

/-- C6: every received payload increments the received-message counter and
records the receipt time; the payload is classified valid iff it is exactly
the fixed notification string "ALERT", and every other payload is classified
invalid (event carries an exception) while still being counted. -/
theorem on_message_counts_and_validates (st : SubscriberState) (now : Nat) (payload : String) :
    ((on_message st now payload).1.messages_received = st.messages_received + 1) ∧
    ((on_message st now payload).1.last_message_time = some now) ∧
    ((on_message st now payload).2.valid = true ↔ payload = "ALERT") ∧
    ((on_message st now payload).2.exception = none ↔ payload = "ALERT") := by
  refine ⟨rfl, rfl, ?_, ?_⟩
  · simp only [on_message]
    exact beq_iff_eq
  · simp only [on_message]
    by_cases h : payload = "ALERT" <;> simp [h]

/-- The per-worker alert statistics dictionary `alert_stats`
(locustfile.py lines 332-336). -/
structure AlertStats where
  total_received : Nat
  valid_alerts : Nat
  invalid_alerts : Nat
  deriving DecidableEq, Repr

/-- The coordinator-side merge in `on_worker_report` (locustfile.py lines
359-365): field-wise addition of a worker's snapshot into the running
totals. -/
def mergeAlertStats (a b : AlertStats) : AlertStats :=
  { total_received := a.total_received + b.total_received,
    valid_alerts := a.valid_alerts + b.valid_alerts,
    invalid_alerts := a.invalid_alerts + b.invalid_alerts }

/-- C7: the worker-stats merge (field-wise addition) is associative and
commutative, so folding any permutation of the worker snapshots into the
totals yields the same run-wide result. -/
theorem mergeAlertStats_assoc_comm :
    (∀ a b c : AlertStats,
      mergeAlertStats (mergeAlertStats a b) c = mergeAlertStats a (mergeAlertStats b c)) ∧
    (∀ a b : AlertStats, mergeAlertStats a b = mergeAlertStats b a) ∧
    (∀ (l1 l2 : List AlertStats) (z : AlertStats), l1.Perm l2 →
      l1.foldl mergeAlertStats z = l2.foldl mergeAlertStats z) := by
  have hassoc : ∀ a b c : AlertStats,
      mergeAlertStats (mergeAlertStats a b) c = mergeAlertStats a (mergeAlertStats b c) := by
    intro a b c
    simp [mergeAlertStats, Nat.add_assoc]
  have hcomm : ∀ a b : AlertStats, mergeAlertStats a b = mergeAlertStats b a := by
    intro a b
    simp [mergeAlertStats, Nat.add_comm]
  refine ⟨hassoc, hcomm, ?_⟩
  intro l1 l2 z hperm
  induction hperm generalizing z with
  | nil => rfl
  | cons x _ ih => simp only [List.foldl_cons]; exact ih _
  | swap x y l =>
    simp only [List.foldl_cons]
    have : mergeAlertStats (mergeAlertStats z y) x = mergeAlertStats (mergeAlertStats z x) y := by
      rw [hassoc, hassoc, hcomm y x]
    rw [this]
  | trans _ _ ih1 ih2 => exact (ih1 z).trans (ih2 z)

/-- Closed-form witness for C7's permutation clause: folding two concrete
snapshots in either order gives the same totals. -/
theorem mergeAlertStats_assoc_comm_witness :
    (([{ total_received := 3, valid_alerts := 2, invalid_alerts := 1 },
       { total_received := 5, valid_alerts := 4, invalid_alerts := 1 }] : List AlertStats).foldl
        mergeAlertStats { total_received := 0, valid_alerts := 0, invalid_alerts := 0 }) =
    (([{ total_received := 5, valid_alerts := 4, invalid_alerts := 1 },
       { total_received := 3, valid_alerts := 2, invalid_alerts := 1 }] : List AlertStats).foldl
        mergeAlertStats { total_received := 0, valid_alerts := 0, invalid_alerts := 0 }) :=
  mergeAlertStats_assoc_comm.2.2 _ _ _ (by decide)


/-- Connection-relevant state of `GMQTTConnectionClient`
(locustfile_distributed.py lines 165-314): `_connected` and whether
`self.client` has been created (it is `None` until `_connect_async` runs). -/
structure GMQTTSession where
  connected : Bool
  hasClient : Bool
  deriving DecidableEq, Repr

/-- `GMQTTConnectionClient.disconnect` (locustfile_distributed.py lines
303-310): only `if self._connected and self.client` does it run the async
disconnect (whose exceptions are swallowed) and set `_connected = False`;
otherwise the state is untouched. -/
def GMQTTSession.disconnect (s : GMQTTSession) : GMQTTSession :=
  if s.connected && s.hasClient then { s with connected := false } else s

/-- Connection state of `MQTTSubscriberClient` relevant to its `disconnect`
(locustfile.py lines 217-222): `_connected` and whether the paho network
loop is running. -/
structure SubscriberSession where
  connected : Bool
  loopRunning : Bool
  deriving DecidableEq, Repr

/-- `MQTTSubscriberClient.disconnect` (locustfile.py lines 217-222): only
`if self._connected` does it stop the network loop, send DISCONNECT and set
`_connected = False`; otherwise nothing happens. -/
def SubscriberSession.disconnect (s : SubscriberSession) : SubscriberSession :=
  if s.connected then { s with connected := false, loopRunning := false } else s

/-- C8: `disconnect()` is idempotent for both session variants: on a session
already disconnected (or never connected) it is a no-op leaving the state
unchanged, and calling it twice equals calling it once (hence any number of
calls equals one call); being a total function, it raises no error. -/
theorem disconnect_idempotent :
    (∀ s : GMQTTSession, s.connected = false → s.disconnect = s) ∧
    (∀ s : GMQTTSession, s.disconnect.disconnect = s.disconnect) ∧
    (∀ s : SubscriberSession, s.connected = false → s.disconnect = s) ∧
    (∀ s : SubscriberSession, s.disconnect.disconnect = s.disconnect) := by
  refine ⟨?_, ?_, ?_, ?_⟩
  · intro s h
    simp [GMQTTSession.disconnect, h]
  · intro s
    rcases s with ⟨c, k⟩
    cases c <;> cases k <;> decide
  · intro s h
    simp [SubscriberSession.disconnect, h]
  · intro s
    rcases s with ⟨c, k⟩
    cases c <;> cases k <;> decide

/-- Closed-form witness for C8: a never-connected gmqtt session and an
already-disconnected subscriber session are fixed by `disconnect`, and a
connected session is unchanged by a second `disconnect`. -/
theorem disconnect_idempotent_witness :
    (GMQTTSession.disconnect { connected := false, hasClient := false } =
      { connected := false, hasClient := false }) ∧
    (GMQTTSession.disconnect (GMQTTSession.disconnect { connected := true, hasClient := true }) =
      GMQTTSession.disconnect { connected := true, hasClient := true }) ∧
    (SubscriberSession.disconnect { connected := false, loopRunning := false } =
      { connected := false, loopRunning := false }) ∧
    (SubscriberSession.disconnect
        (SubscriberSession.disconnect { connected := true, loopRunning := true }) =
      SubscriberSession.disconnect { connected := true, loopRunning := true }) :=
  ⟨disconnect_idempotent.1 _ rfl,
   disconnect_idempotent.2.1 _,
   disconnect_idempotent.2.2.1 _ rfl,
   disconnect_idempotent.2.2.2 _⟩

/-- The CONNACK return-code messages of `_on_connect`
(locustfile_distributed.py lines 266-273, identically in
locustfile_connection_test.py lines 169-176). -/
def rc_message (rc : Nat) : String :=
  if rc = 1 then "Incorrect protocol version"
  else if rc = 2 then "Invalid client identifier"
  else if rc = 3 then "Server unavailable"
  else if rc = 4 then "Bad username or password"
  else if rc = 5 then "Not authorized"
  else "Unknown error (rc=" ++ toString rc ++ ")"

/-- A `connect` request event as fired via `environment.events.request.fire`:
`exception` is the stringified exception (or `none` on success) and `rc` is
the CONNACK code when the firing site put it into the context (only the
failure branch of `_on_connect` does). -/
structure ConnEvent where
  request_type : String
  name : String
  exception : Option String
  rc : Option Nat
  deriving DecidableEq, Repr

/-- The event fired by `_on_connect` (locustfile_distributed.py lines
251-288): on `rc = 0` a success event with no rc in the context; otherwise a
failure event carrying the mapped message and the rc. -/
def on_connect_event (rc : Nat) : ConnEvent :=
  if rc = 0 then
    { request_type := "MQTT", name := "connect", exception := none, rc := none }
  else
    { request_type := "MQTT", name := "connect", exception := some (rc_message rc),
      rc := some rc }

/-- The event fired by the `except` handler of `_connect_async` (lines
223-233) or of `connect` (lines 239-249): a failure event whose context has
no rc. -/
def connect_fail_event (msg : String) : ConnEvent :=
  { request_type := "MQTT", name := "connect", exception := some msg, rc := none }

/-- How one connect attempt's underlying protocol interaction can end, as
distinguished by `_connect_async`/`connect`: a CONNACK with some return code;
a transport-level exception from the TCP/TLS connect; no CONNACK within the
connect timeout (`asyncio.wait_for` fires); or the bridge's own bounded wait
(`future.result(timeout=connect_timeout + 5)`) elapsing. -/
inductive AsyncOutcome
  | connack (rc : Nat)
  | transportError (msg : String)
  | connackTimeout
  | bridgeTimeout
  deriving DecidableEq, Repr

/-- `GMQTTConnectionClient.connect` / `_connect_async` / `_on_connect`
(locustfile_distributed.py lines 177-288), as a function of how the
underlying attempt ends.  Returns the boolean result of `connect` and the
list of `connect` events fired during the attempt, in order:
- CONNACK rc=0: `_on_connect` fires the success event, `_connect_async`
  returns True;
- CONNACK rc≠0: `_on_connect` fires a failure event with the rc in its
  context and stores `_connect_error`; back in `_connect_async` the stored
  error is re-raised, so its `except` fires a second failure event (no rc)
  and returns False;
- transport error: `self.client.connect(...)` raises inside the `try`, one
  failure event, False;
- CONNACK timeout: `asyncio.wait_for` raises, converted to
  `Exception("CONNACK timeout (...)")`, one failure event, False;
- bridge timeout: `run_async`'s `future.result` raises in the synchronous
  `connect`, whose `except` fires one failure event and returns False. -/
def gmqtt_connect : AsyncOutcome → Bool × List ConnEvent
  | .connack rc =>
      if rc = 0 then (true, [on_connect_event rc])
      else (false, [on_connect_event rc, connect_fail_event (rc_message rc)])
  | .transportError msg => (false, [connect_fail_event msg])
  | .connackTimeout =>
      (false, [connect_fail_event "CONNACK timeout"])
  | .bridgeTimeout => (false, [connect_fail_event "TimeoutError"])

/-- Per-worker connection statistics `connection_stats`
(locustfile_distributed.py lines 382-387). -/
structure ConnStats where
  total_attempts : Nat
  successful : Nat
  failed : Nat
  auth_failures : Nat
  deriving DecidableEq, Repr

/-- The `on_request` listener (locustfile_distributed.py lines 391-402): for
every MQTT `connect` event it bumps `total_attempts`, then `failed` (and
`auth_failures` if the context's rc is 4 or 5) on an exception, else
`successful`. -/
def on_request (s : ConnStats) (e : ConnEvent) : ConnStats :=
  if e.request_type == "MQTT" && e.name == "connect" then
    let s := { s with total_attempts := s.total_attempts + 1 }
    if e.exception.isSome then
      let s := { s with failed := s.failed + 1 }
      if e.rc == some 4 || e.rc == some 5 then
        { s with auth_failures := s.auth_failures + 1 }
      else s
    else { s with successful := s.successful + 1 }
  else s

/-- C2 counterexample: a CONNACK denial with rc=5 ("not authorized") does
not emit exactly one failed connect event — the attempt fires two (one from
`_on_connect`, one from the `except` handler of `_connect_async` after the
stored error is re-raised). -/
theorem connack_denied_not_one_event :
    ¬ (((gmqtt_connect (.connack 5)).2.filter
        (fun e => e.exception.isSome)).length = 1) := by
  decide

/-- C2 (amended): a connect attempt denied with CONNACK rc=5 returns false,
emits exactly two failed connect outcome events (both seen by `on_request`),
and increments the `auth_failures` counter exactly once — only the
`_on_connect` event carries the rc in its context; `failed` and
`total_attempts` each grow by two. -/
theorem connack_denied_stats (s : ConnStats) :
    (gmqtt_connect (.connack 5)).1 = false ∧
    ((gmqtt_connect (.connack 5)).2.filter (fun e => e.exception.isSome)).length = 2 ∧
    ((gmqtt_connect (.connack 5)).2.foldl on_request s).auth_failures =
      s.auth_failures + 1 ∧
    ((gmqtt_connect (.connack 5)).2.foldl on_request s).failed = s.failed + 2 ∧
    ((gmqtt_connect (.connack 5)).2.foldl on_request s).total_attempts =
      s.total_attempts + 2 := by
  refine ⟨rfl, by decide, ?_, ?_, ?_⟩ <;>
    simp [gmqtt_connect, on_connect_event, connect_fail_event, on_request, rc_message]

/-- C5: `connect()` never raises to its caller: for every way the underlying
attempt can end other than a successful CONNACK (denial with any nonzero rc,
transport error on any broker/port/TLS setting, CONNACK timeout, bridge
timeout), it returns false and at least one failed outcome event was fired;
it is a total function of the outcome, so no exception escapes. -/
theorem gmqtt_connect_no_raise (o : AsyncOutcome) (h : o ≠ .connack 0) :
    (gmqtt_connect o).1 = false ∧
    (gmqtt_connect o).2.any (fun e => e.exception.isSome) = true := by
  cases o with
  | connack rc =>
    have hrc : rc ≠ 0 := by
      intro h0
      exact h (by rw [h0])
    simp [gmqtt_connect, hrc, on_connect_event, connect_fail_event]
  | transportError msg => exact ⟨rfl, rfl⟩
  | connackTimeout => exact ⟨rfl, rfl⟩
  | bridgeTimeout => exact ⟨rfl, rfl⟩

/-- Closed-form witness for C5: a denial with rc=5 yields false and a failed
event. -/
theorem gmqtt_connect_no_raise_witness :
    (gmqtt_connect (.connack 5)).1 = false ∧
    (gmqtt_connect (.connack 5)).2.any (fun e => e.exception.isSome) = true :=
  gmqtt_connect_no_raise (.connack 5) (by decide)

/-- The poll loop of `MQTTConnectionClient.connect`
(locustfile_connection_test.py line 130): `while not self._connected and not
self._connect_error and (time.time() - start) < timeout: time.sleep(0.05)`.
Time is discretised into poll steps; `connAt t` is the CONNACK code the
callback has delivered by step `t` (`some 0` sets `_connected`, `some rc`
with `rc ≠ 0` sets `_connect_error`), `none` if none yet.  Returns the step
at which the loop exits; the fuel is the timeout in poll steps. -/
def pollLoop (connAt : Nat → Option Nat) : Nat → Nat → Nat
  | t, 0 => t
  | t, fuel + 1 =>
      match connAt t with
      | some _ => t
      | none => pollLoop connAt (t + 1) fuel

/-- Error classification of a failed connect, per the spec taxonomy: the
`raise Exception(self._connect_error)` path is a protocol denial, the
`raise Exception("Connection timeout (...)")` path is a timeout. -/
inductive ConnErr
  | protocolDenied (msg : String)
  | timedOut
  deriving DecidableEq, Repr

/-- `MQTTConnectionClient.connect` (locustfile_connection_test.py lines
109-151) as a function of the CONNACK trace: run the bounded poll loop, then
`if self._connected: return True / elif self._connect_error: raise (caught,
False) / else: raise timeout (caught, False)`.  Returns (result, error
classification, poll step at which the call returned). -/
def sync_connect (connAt : Nat → Option Nat) (timeout : Nat) :
    Bool × Option ConnErr × Nat :=
  let tEnd := pollLoop connAt 0 timeout
  match connAt tEnd with
  | some 0 => (true, none, tEnd)
  | some rc => (false, some (.protocolDenied (rc_message rc)), tEnd)
  | none => (false, some .timedOut, tEnd)

/-- When no CONNACK ever arrives, the poll loop consumes all its fuel,
advancing one step per iteration. -/
theorem pollLoop_none (t fuel : Nat) :
    pollLoop (fun _ => none) t fuel = t + fuel := by
  induction fuel generalizing t with
  | zero => rfl
  | succ fuel ih =>
    simp only [pollLoop]
    rw [ih]
    omega

/-- C4: a `connect()` call in which no CONNACK ever arrives returns false,
classified as a timeout, exactly when the configured timeout elapses — within
the timeout plus the fixed 5-step grace period of the bridge, never blocking
indefinitely (the loop is fuel-bounded). -/
theorem connect_no_ack_times_out (timeout : Nat) :
    sync_connect (fun _ => none) timeout = (false, some .timedOut, timeout) ∧
    (sync_connect (fun _ => none) timeout).2.2 ≤ timeout + 5 := by
  have h : sync_connect (fun _ => none) timeout = (false, some .timedOut, timeout) := by
    simp only [sync_connect, pollLoop_none, Nat.zero_add]
  refine ⟨h, ?_⟩
  rw [h]
  simp only []
  omega
